import Mathlib

/-!
Shallow embedding of the EduLink student-records service (`src/app.py`).

The service is a FastAPI application over a single `students` table.  We
model the table as a list of rows (`Store`), the pydantic validation of
`StudentIn` (including ISO-8601 date parsing, as pydantic's strict
RFC 3339 `YYYY-MM-DD` parser does), the five request handlers, the
request-logging middleware, and the state transitions reachable from an
empty store.
-/

namespace EduLink

/-! ### Dates (`datetime.date` on the wire as ISO-8601 text) -/

/-- A calendar date value, the result of parsing the `date_joined` field
(`datetime.date` in `app.py`). -/
structure Date where
  year : Nat
  month : Nat
  day : Nat
deriving DecidableEq, Repr

/-- Test for an ASCII digit character. -/
def isDigitCh (c : Char) : Bool := 48 ≤ c.toNat && c.toNat ≤ 57

/-- Numeric value of an ASCII digit character. -/
def digitVal (c : Char) : Nat := c.toNat - 48

/-- ASCII digit character for a value below 10. -/
def digitCh (n : Nat) : Char := Char.ofNat (48 + n)

/-- Length of a month, with the Gregorian leap rule (as Python's
`datetime.date` validates). -/
def daysInMonth (y m : Nat) : Nat :=
  if m = 2 then
    (if y % 4 = 0 && (y % 100 ≠ 0 || y % 400 = 0) then 29 else 28)
  else if m = 4 || m = 6 || m = 9 || m = 11 then 30 else 31

/-- Parse an ISO-8601 `YYYY-MM-DD` date string, as pydantic does for a
`datetime.date` field: exactly ten characters, zero-padded digits,
validated month and day, year at least 1 (Python's `date` minimum). -/
def parseIsoDate (s : String) : Option Date :=
  match s.toList with
  | [y1, y2, y3, y4, h1, m1, m2, h2, d1, d2] =>
    if h1 = '-' ∧ h2 = '-' ∧
        isDigitCh y1 ∧ isDigitCh y2 ∧ isDigitCh y3 ∧ isDigitCh y4 ∧
        isDigitCh m1 ∧ isDigitCh m2 ∧ isDigitCh d1 ∧ isDigitCh d2 then
      let y := 1000 * digitVal y1 + 100 * digitVal y2 + 10 * digitVal y3 + digitVal y4
      let m := 10 * digitVal m1 + digitVal m2
      let d := 10 * digitVal d1 + digitVal d2
      if 1 ≤ y ∧ 1 ≤ m ∧ m ≤ 12 ∧ 1 ≤ d ∧ d ≤ daysInMonth y m then
        some ⟨y, m, d⟩
      else none
    else none
  | _ => none

/-- Serialize a date back to ISO-8601 `YYYY-MM-DD` text, as Python's
`date.isoformat` does (zero-padded fields). -/
def formatIsoDate (dt : Date) : String :=
  String.mk [digitCh (dt.year / 1000 % 10), digitCh (dt.year / 100 % 10),
    digitCh (dt.year / 10 % 10), digitCh (dt.year % 10), '-',
    digitCh (dt.month / 10 % 10), digitCh (dt.month % 10), '-',
    digitCh (dt.day / 10 % 10), digitCh (dt.day % 10)]

/-! ### Record schema -/

/-- A stored row of the `students` table (`StudentORM` in `app.py`).
`created_at` is the server-assigned insertion timestamp
(`default=func.now()`); we model timestamps as naturals. -/
structure Student where
  id : Int
  name : String
  enrolled_class : String
  date_joined : Date
  created_at : Nat
deriving DecidableEq, Repr

/-- The raw caller-supplied body of a create request, before validation.
Field types as JSON delivers them to pydantic: the date arrives as text. -/
structure RawStudentIn where
  id : Int
  name : String
  enrolled_class : String
  date_joined : String
deriving DecidableEq, Repr

/-- A validated create body (`StudentIn` in `app.py`). -/
structure StudentIn where
  id : Int
  name : String
  enrolled_class : String
  date_joined : Date
deriving DecidableEq, Repr

/-- Pydantic validation of `StudentIn`: `id` has `ge=1`, `name` has
`min_length=1, max_length=200`, `enrolled_class` has
`min_length=1, max_length=120`, and `date_joined` must parse as an
ISO-8601 date.  Any violation yields a 422 before the handler runs. -/
def validateStudentIn (raw : RawStudentIn) : Option StudentIn :=
  if 1 ≤ raw.id ∧
      1 ≤ raw.name.length ∧ raw.name.length ≤ 200 ∧
      1 ≤ raw.enrolled_class.length ∧ raw.enrolled_class.length ≤ 120 then
    match parseIsoDate raw.date_joined with
    | some d => some ⟨raw.id, raw.name, raw.enrolled_class, d⟩
    | none => none
  else none

/-! ### Store -/

/-- The backing store: the rows of the `students` table, in insertion
order. -/
structure Store where
  rows : List Student
deriving DecidableEq, Repr

/-- The ids of all stored rows. -/
def studentIds (s : Store) : List Int := s.rows.map (fun r => r.id)

/-- The `ORDER BY id` relation used by the list endpoint. -/
def byId (a b : Student) : Prop := a.id ≤ b.id

instance : DecidableRel byId := fun a b => inferInstanceAs (Decidable (a.id ≤ b.id))

instance : IsTotal Student byId := ⟨fun a b => Int.le_total a.id b.id⟩

instance : IsTrans Student byId := ⟨fun _ _ _ h h' => Int.le_trans h h'⟩

/-! ### Responses and requests -/

/-- The response bodies the handlers produce. -/
inductive Response where
  | rootMsg (message : String)
  | studentList (students : List Student)
  | studentOne (student : Student)
  | created (message : String) (student : Student)
  | noContent
  | health (status : String) (db : String) (timestamp : String)
  | error (code : Nat) (detail : String)
deriving DecidableEq, Repr

/-- HTTP status code of a response. -/
def statusOf : Response → Nat
  | .rootMsg _ => 200
  | .studentList _ => 200
  | .studentOne _ => 200
  | .created _ _ => 201
  | .noContent => 204
  | .health _ _ _ => 200
  | .error code _ => code

/-- An inbound request.  For `GET /health` the outcome of the store
probe (`db.execute(select(func.now()))`) is part of the environment and
travels with the request: `.ok` when the query succeeds, `.error` when
it raises. -/
inductive Request where
  | root
  | listStudents
  | getStudent (student_id : Int)
  | createStudent (raw : RawStudentIn)
  | deleteStudent (student_id : Int)
  | health (probe : Except String Unit)
deriving Repr

/-- Timestamp rendering for the health body
(`datetime.datetime.now(timezone.utc).isoformat()`). -/
def formatTimestamp (now : Nat) : String := toString now

/-! ### Handlers (one per endpoint, as in `app.py`) -/

/-- Handler of `GET /` (`root` in `app.py`). -/
def root (db : Store) : Store × Response :=
  (db, .rootMsg "EduLink Backend is running now version 2 - Deployed via Docker & Magic Containers (DB-backed)!")

/-- Handler of `GET /students` (`get_students`): select all rows ordered
by id ascending. -/
def get_students (db : Store) : Store × Response :=
  (db, .studentList (List.insertionSort byId db.rows))

/-- Handler of `GET /students/:student_id` (`get_student`):
select the row with that id, 404 when absent. -/
def get_student (student_id : Int) (db : Store) : Store × Response :=
  match db.rows.find? (fun r => r.id == student_id) with
  | none => (db, .error 404 "Student not found")
  | some st => (db, .studentOne st)

/-- Handler body of `POST /students` (`add_student`), after validation:
a precedent existence read, 409 on a duplicate id, otherwise insert with
server-assigned `created_at` and echo the stored record. -/
def add_student (student : StudentIn) (db : Store) (now : Nat) : Store × Response :=
  match db.rows.find? (fun r => r.id == student.id) with
  | some _ => (db, .error 409 "Student with this ID already exists")
  | none =>
    let obj : Student :=
      ⟨student.id, student.name, student.enrolled_class, student.date_joined, now⟩
    (⟨db.rows ++ [obj]⟩, .created "Student added successfully!" obj)

/-- The create endpoint: FastAPI validates the body against `StudentIn`
before the handler body runs; a violation is a 422 and the handler is
never entered. -/
def createEndpoint (raw : RawStudentIn) (db : Store) (now : Nat) : Store × Response :=
  match validateStudentIn raw with
  | none => (db, .error 422 "validation error")
  | some student => add_student student db now

/-- Handler of `DELETE /students/:student_id` (`delete_student`):
existence read, 404 when absent, otherwise delete the rows with that id
and return 204 with an empty body. -/
def delete_student (student_id : Int) (db : Store) : Store × Response :=
  match db.rows.find? (fun r => r.id == student_id) with
  | none => (db, .error 404 "Student not found")
  | some _ => (⟨db.rows.filter (fun r => r.id != student_id)⟩, .noContent)

/-- Handler of `GET /health` (`health_check`): the probe's exception is
caught and only downgrades the reported status; the response is HTTP 200
either way. -/
def health_check (probe : Except String Unit) (db : Store) (now : Nat) : Store × Response :=
  let db_ok : Bool := match probe with | .ok _ => true | .error _ => false
  (db, .health (if db_ok then "healthy" else "degraded")
    (if db_ok then "ok" else "error") (formatTimestamp now))

/-- Route a request to its handler, as FastAPI's router does. -/
def dispatch (req : Request) (db : Store) (now : Nat) : Store × Response :=
  match req with
  | .root => root db
  | .listStudents => get_students db
  | .getStudent i => get_student i db
  | .createStudent raw => createEndpoint raw db now
  | .deleteStudent i => delete_student i db
  | .health probe => health_check probe db now

/-! ### Request-logging middleware -/

/-- A log line emitted by the middleware. -/
inductive LogEntry where
  | pre (method : String) (target : String)
  | post (statusCode : Nat)
deriving DecidableEq, Repr

/-- HTTP method of a request. -/
def methodOf : Request → String
  | .root => "GET"
  | .listStudents => "GET"
  | .getStudent _ => "GET"
  | .createStudent _ => "POST"
  | .deleteStudent _ => "DELETE"
  | .health _ => "GET"

/-- Target path of a request. -/
def targetOf : Request → String
  | .root => "/"
  | .listStudents => "/students"
  | .getStudent i => "/students/" ++ toString i
  | .createStudent _ => "/students"
  | .deleteStudent i => "/students/" ++ toString i
  | .health _ => "/health"

/-- Whether a log line is a pre-dispatch line. -/
def isPreLog : LogEntry → Bool
  | .pre _ _ => true
  | .post _ => false

/-- Whether a log line is a post-dispatch line. -/
def isPostLog : LogEntry → Bool
  | .pre _ _ => false
  | .post _ => true

/-- The `log_requests` middleware: log method and target, dispatch
(`call_next`, which converts any handler exception into a status code),
log the resulting status, return the response. -/
def log_requests (req : Request) (db : Store) (now : Nat) :
    Store × Response × List LogEntry :=
  let preLine := LogEntry.pre (methodOf req) (targetOf req)
  let out := dispatch req db now
  (out.1, out.2, [preLine, LogEntry.post (statusOf out.2)])

/-! ### Reachable states -/

/-- Store states reachable from the empty store by any sequence of
requests (each served at some timestamp). -/
inductive Reachable : Store → Prop
  | init : Reachable ⟨[]⟩
  | step (req : Request) (now : Nat) (s : Store) :
      Reachable s → Reachable (dispatch req s now).1

/-! ### Helper lemmas -/

/-- An ASCII digit character has value below 10. -/
theorem digitVal_lt_ten (c : Char) (h : isDigitCh c = true) : digitVal c < 10 := by
  simp only [isDigitCh, Bool.and_eq_true, decide_eq_true_eq] at h
  unfold digitVal
  omega

/-- Rendering the value of an ASCII digit character gives the character
back. -/
theorem digitCh_digitVal (c : Char) (h : isDigitCh c = true) : digitCh (digitVal c) = c := by
  simp only [isDigitCh, Bool.and_eq_true, decide_eq_true_eq] at h
  unfold digitCh digitVal
  have heq : 48 + (c.toNat - 48) = c.toNat := by omega
  rw [heq, Char.ofNat_toNat]

/-- Any string accepted by the strict ISO-8601 date parser is
reproduced byte-for-byte by `formatIsoDate`. -/
theorem formatIsoDate_parseIsoDate (s : String) (dt : Date)
    (h : parseIsoDate s = some dt) : formatIsoDate dt = s := by
  obtain ⟨data⟩ := s
  unfold parseIsoDate at h
  split at h
  case h_2 => exact absurd h (by simp)
  case h_1 y1 y2 y3 y4 c1 m1 m2 c2 d1 d2 heq =>
    replace heq : data = [y1, y2, y3, y4, c1, m1, m2, c2, d1, d2] := heq
    subst heq
    split at h
    case isFalse => exact absurd h (by simp)
    case isTrue hc =>
      obtain ⟨hc1, hc2, hy1, hy2, hy3, hy4, hm1, hm2, hd1, hd2⟩ := hc
      subst hc1
      subst hc2
      dsimp only at h
      split at h
      case isFalse => exact absurd h (by simp)
      case isTrue hr =>
        have hdt :
            dt = ⟨1000 * digitVal y1 + 100 * digitVal y2 + 10 * digitVal y3 + digitVal y4,
              10 * digitVal m1 + digitVal m2, 10 * digitVal d1 + digitVal d2⟩ := by
          injection h with h
          exact h.symm
        subst hdt
        have by1 := digitVal_lt_ten y1 hy1
        have by2 := digitVal_lt_ten y2 hy2
        have by3 := digitVal_lt_ten y3 hy3
        have by4 := digitVal_lt_ten y4 hy4
        have bm1 := digitVal_lt_ten m1 hm1
        have bm2 := digitVal_lt_ten m2 hm2
        have bd1 := digitVal_lt_ten d1 hd1
        have bd2 := digitVal_lt_ten d2 hd2
        refine congrArg String.mk ?_
        simp only [formatIsoDate, List.cons.injEq, and_true]
        refine ⟨?_, ?_, ?_, ?_, trivial, ?_, ?_, trivial, ?_, ?_⟩
        · rw [show (1000 * digitVal y1 + 100 * digitVal y2 + 10 * digitVal y3 +
            digitVal y4) / 1000 % 10 = digitVal y1 by omega]
          exact digitCh_digitVal y1 hy1
        · rw [show (1000 * digitVal y1 + 100 * digitVal y2 + 10 * digitVal y3 +
            digitVal y4) / 100 % 10 = digitVal y2 by omega]
          exact digitCh_digitVal y2 hy2
        · rw [show (1000 * digitVal y1 + 100 * digitVal y2 + 10 * digitVal y3 +
            digitVal y4) / 10 % 10 = digitVal y3 by omega]
          exact digitCh_digitVal y3 hy3
        · rw [show (1000 * digitVal y1 + 100 * digitVal y2 + 10 * digitVal y3 +
            digitVal y4) % 10 = digitVal y4 by omega]
          exact digitCh_digitVal y4 hy4
        · rw [show (10 * digitVal m1 + digitVal m2) / 10 % 10 = digitVal m1 by omega]
          exact digitCh_digitVal m1 hm1
        · rw [show (10 * digitVal m1 + digitVal m2) % 10 = digitVal m2 by omega]
          exact digitCh_digitVal m2 hm2
        · rw [show (10 * digitVal d1 + digitVal d2) / 10 % 10 = digitVal d1 by omega]
          exact digitCh_digitVal d1 hd1
        · rw [show (10 * digitVal d1 + digitVal d2) % 10 = digitVal d2 by omega]
          exact digitCh_digitVal d2 hd2

/-- When an id is absent from the store, the existence read finds
nothing. -/
theorem find?_id_eq_none (rows : List Student) (i : Int)
    (h : i ∉ rows.map (fun r => r.id)) :
    rows.find? (fun r => r.id == i) = none := by
  rw [List.find?_eq_none]
  intro r hr
  simp only [beq_iff_eq]
  exact fun e => h (List.mem_map.2 ⟨r, hr, e⟩)

/-! ### Claim theorems -/

/-- C6: for every outcome of the store probe, the health endpoint
returns HTTP 200 with a timestamp, leaving the store as is; a
successful probe reports `healthy`/`ok`, a raising probe is caught and
reports `degraded`/`error` instead of propagating. -/
theorem health_always_200 (probe : Except String Unit) (db : Store) (now : Nat) :
    (dispatch (.health probe) db now).1 = db ∧
    statusOf (dispatch (.health probe) db now).2 = 200 ∧
    (dispatch (.health probe) db now).2 =
      .health (match probe with | .ok _ => "healthy" | .error _ => "degraded")
        (match probe with | .ok _ => "ok" | .error _ => "error")
        (formatTimestamp now) := by
  cases probe <;> simp [dispatch, health_check, statusOf]

/-- C8: for every request and store, the middleware emits exactly one
pre-dispatch log of the method and target and exactly one post-dispatch
log of the resulting status code, in that order, whatever the handler's
outcome. -/
theorem log_requests_one_pre_one_post (req : Request) (db : Store) (now : Nat) :
    (log_requests req db now).2.2 =
      [LogEntry.pre (methodOf req) (targetOf req),
        LogEntry.post (statusOf (dispatch req db now).2)] ∧
    ((log_requests req db now).2.2.countP isPreLog = 1 ∧
      (log_requests req db now).2.2.countP isPostLog = 1) := by
  refine ⟨rfl, ?_, ?_⟩ <;>
    simp [log_requests, List.countP_cons, isPreLog, isPostLog]

/-- C10: the read-only endpoints — root, list, get by id, and health —
return the store unchanged for every store state and every input. -/
theorem readonly_endpoints_frame :
    (∀ (db : Store) (now : Nat), (dispatch .root db now).1 = db) ∧
    (∀ (db : Store) (now : Nat), (dispatch .listStudents db now).1 = db) ∧
    (∀ (i : Int) (db : Store) (now : Nat), (dispatch (.getStudent i) db now).1 = db) ∧
    (∀ (probe : Except String Unit) (db : Store) (now : Nat),
      (dispatch (.health probe) db now).1 = db) := by
  refine ⟨fun db now => rfl, fun db now => rfl, fun i db now => ?_, fun p db now => rfl⟩
  simp only [dispatch]
  unfold get_student
  cases db.rows.find? (fun r => r.id == i) <;> rfl

/-- C2: creating a student whose id already exists fails with HTTP 409
Conflict, detected by the precedent existence read, and returns the
store unchanged: same rows, hence same count and same records. -/
theorem create_duplicate_conflict (raw : RawStudentIn) (student : StudentIn)
    (db : Store) (now : Nat)
    (hv : validateStudentIn raw = some student)
    (hdup : student.id ∈ studentIds db) :
    dispatch (.createStudent raw) db now =
      (db, .error 409 "Student with this ID already exists") ∧
    statusOf (dispatch (.createStudent raw) db now).2 = 409 := by
  obtain ⟨r, hr, hrid⟩ := List.mem_map.1 hdup
  have hfind : db.rows.find? (fun x => x.id == student.id) ≠ none := by
    intro hnone
    exact absurd (by simpa using hrid) (by simpa using List.find?_eq_none.1 hnone r hr)
  have key : dispatch (.createStudent raw) db now = add_student student db now := by
    simp only [dispatch]
    unfold createEndpoint
    rw [hv]
  rw [key]
  unfold add_student
  cases hfound : db.rows.find? (fun x => x.id == student.id) with
  | none => exact absurd hfound hfind
  | some st => exact ⟨rfl, rfl⟩

/-- C2 witness: a concrete duplicate create is rejected with 409 and
leaves the one-row store untouched. -/
theorem create_duplicate_conflict_witness :
    validateStudentIn ⟨1, "Ada", "CS101", "2025-08-17"⟩ =
      some ⟨1, "Ada", "CS101", ⟨2025, 8, 17⟩⟩ ∧
    (1 : Int) ∈ studentIds ⟨[⟨1, "Bo", "CS1", ⟨2024, 1, 2⟩, 0⟩]⟩ ∧
    (dispatch (.createStudent ⟨1, "Ada", "CS101", "2025-08-17"⟩)
        ⟨[⟨1, "Bo", "CS1", ⟨2024, 1, 2⟩, 0⟩]⟩ 7 =
      (⟨[⟨1, "Bo", "CS1", ⟨2024, 1, 2⟩, 0⟩]⟩,
        .error 409 "Student with this ID already exists") ∧
      statusOf (dispatch (.createStudent ⟨1, "Ada", "CS101", "2025-08-17"⟩)
        ⟨[⟨1, "Bo", "CS1", ⟨2024, 1, 2⟩, 0⟩]⟩ 7).2 = 409) :=
  ⟨by decide, by decide,
    create_duplicate_conflict ⟨1, "Ada", "CS101", "2025-08-17"⟩
      ⟨1, "Ada", "CS101", ⟨2025, 8, 17⟩⟩
      ⟨[⟨1, "Bo", "CS1", ⟨2024, 1, 2⟩, 0⟩]⟩ 7 (by decide) (by decide)⟩

/-- C5: a create body violating a declared field constraint — id below
1, empty or over-long name or enrolled class, or a date field that does
not parse as a date — is rejected with HTTP 422 before the handler body
runs, and the store is not modified. -/
theorem invalid_body_422 (raw : RawStudentIn) (db : Store) (now : Nat)
    (hbad : raw.id < 1 ∨ raw.name.length = 0 ∨ 200 < raw.name.length ∨
      raw.enrolled_class.length = 0 ∨ 120 < raw.enrolled_class.length ∨
      parseIsoDate raw.date_joined = none) :
    dispatch (.createStudent raw) db now = (db, .error 422 "validation error") ∧
    statusOf (dispatch (.createStudent raw) db now).2 = 422 := by
  have hv : validateStudentIn raw = none := by
    unfold validateStudentIn
    rcases hbad with h | h | h | h | h | h
    · rw [if_neg]
      intro hc
      omega
    · rw [if_neg]
      intro hc
      omega
    · rw [if_neg]
      intro hc
      omega
    · rw [if_neg]
      intro hc
      omega
    · rw [if_neg]
      intro hc
      omega
    · split
      · rw [h]
      · rfl
  have key : dispatch (.createStudent raw) db now = (db, .error 422 "validation error") := by
    simp only [dispatch]
    unfold createEndpoint
    rw [hv]
  rw [key]
  exact ⟨rfl, rfl⟩

/-- C5 witness: a concrete body with id 0 is rejected with 422 and the
empty store stays empty. -/
theorem invalid_body_422_witness :
    ((0 : Int) < 1 ∨ ("Ada" : String).length = 0 ∨ 200 < ("Ada" : String).length ∨
      ("CS101" : String).length = 0 ∨ 120 < ("CS101" : String).length ∨
      parseIsoDate "2025-08-17" = none) ∧
    (dispatch (.createStudent ⟨0, "Ada", "CS101", "2025-08-17"⟩) ⟨[]⟩ 7 =
        (⟨[]⟩, .error 422 "validation error") ∧
      statusOf (dispatch (.createStudent ⟨0, "Ada", "CS101", "2025-08-17"⟩) ⟨[]⟩ 7).2 = 422) :=
  ⟨by decide, invalid_body_422 ⟨0, "Ada", "CS101", "2025-08-17"⟩ ⟨[]⟩ 7 (by decide)⟩

/-- C4: in a store with unique ids, deleting an absent id fails with
HTTP 404 and leaves the store unchanged; deleting a present id succeeds
with HTTP 204, an empty body, and removes exactly one record — the
record bearing that id. -/
theorem delete_student_spec (i : Int) (db : Store) (now : Nat)
    (hnodup : (studentIds db).Nodup) :
    (i ∉ studentIds db →
      dispatch (.deleteStudent i) db now = (db, .error 404 "Student not found")) ∧
    (i ∈ studentIds db →
      ∃ st : Student, st ∈ db.rows ∧ st.id = i ∧
        (dispatch (.deleteStudent i) db now).2 = .noContent ∧
        statusOf (dispatch (.deleteStudent i) db now).2 = 204 ∧
        (dispatch (.deleteStudent i) db now).1.rows.length + 1 = db.rows.length ∧
        (∀ r : Student, r ∈ (dispatch (.deleteStudent i) db now).1.rows ↔
          (r ∈ db.rows ∧ r ≠ st))) := by
  unfold studentIds at hnodup
  constructor
  · intro habs
    have hf : db.rows.find? (fun r => r.id == i) = none :=
      find?_id_eq_none db.rows i (by simpa [studentIds] using habs)
    simp only [dispatch]
    unfold delete_student
    rw [hf]
  · intro hpres
    obtain ⟨r0, hr0, hr0id⟩ := List.mem_map.1 hpres
    cases hf : db.rows.find? (fun r => r.id == i) with
    | none =>
      exact absurd (beq_iff_eq.2 hr0id) (by simpa using List.find?_eq_none.1 hf r0 hr0)
    | some st =>
      have hst : st ∈ db.rows := List.mem_of_find?_eq_some hf
      have hstid : st.id = i := by simpa using List.find?_some hf
      have hkey : dispatch (.deleteStudent i) db now =
          (⟨db.rows.filter (fun r => r.id != i)⟩, .noContent) := by
        simp only [dispatch]
        unfold delete_student
        rw [hf]
      have hrows : (dispatch (.deleteStudent i) db now).1.rows =
          db.rows.filter (fun r => r.id != i) := by rw [hkey]
      have hrownd : db.rows.Nodup := List.Nodup.of_map _ hnodup
      have hinj := List.inj_on_of_nodup_map hnodup
      have hmem : ∀ r : Student, r ∈ db.rows.filter (fun x => x.id != i) ↔
          (r ∈ db.rows ∧ r ≠ st) := by
        intro r
        rw [List.mem_filter, bne_iff_ne]
        constructor
        · rintro ⟨hrm, hne⟩
          exact ⟨hrm, fun e => hne (e ▸ hstid)⟩
        · rintro ⟨hrm, hne⟩
          exact ⟨hrm, fun e => hne (hinj hrm hst (e.trans hstid.symm))⟩
      have hlen : (db.rows.filter (fun x => x.id != i)).length + 1 = db.rows.length := by
        have hperm := List.perm_cons_erase hst
        have hfp := (List.Perm.filter (fun x => x.id != i) hperm).length_eq
        have hcons : (st :: db.rows.erase st).filter (fun x => x.id != i) =
            (db.rows.erase st).filter (fun x => x.id != i) :=
          List.filter_cons_of_neg (by simp [hstid])
        have hall : (db.rows.erase st).filter (fun x => x.id != i) = db.rows.erase st := by
          rw [List.filter_eq_self]
          intro a ha
          obtain ⟨hane, ham⟩ := (hrownd.mem_erase_iff).1 ha
          rw [bne_iff_ne]
          exact fun e => hane (hinj ham hst (e.trans hstid.symm))
        rw [hcons, hall] at hfp
        rw [hfp, List.length_erase_of_mem hst]
        have := List.length_pos_of_mem hst
        omega
      refine ⟨st, hst, hstid, by rw [hkey], by rw [hkey]; rfl, ?_, ?_⟩
      · rw [hrows]
        exact hlen
      · intro r
        rw [hrows]
        exact hmem r

/-- C4 witness: deleting id 1 from a concrete one-row store removes that
row with a 204, and deleting the absent id 2 from it is a 404 that
leaves the store unchanged. -/
theorem delete_student_spec_witness :
    (studentIds ⟨[⟨1, "Ada", "CS101", ⟨2025, 8, 17⟩, 0⟩]⟩).Nodup ∧
    (((1 : Int) ∉ studentIds ⟨[⟨1, "Ada", "CS101", ⟨2025, 8, 17⟩, 0⟩]⟩ →
      dispatch (.deleteStudent 1) ⟨[⟨1, "Ada", "CS101", ⟨2025, 8, 17⟩, 0⟩]⟩ 9 =
        (⟨[⟨1, "Ada", "CS101", ⟨2025, 8, 17⟩, 0⟩]⟩, .error 404 "Student not found")) ∧
    ((1 : Int) ∈ studentIds ⟨[⟨1, "Ada", "CS101", ⟨2025, 8, 17⟩, 0⟩]⟩ →
      ∃ st : Student, st ∈ (⟨[⟨1, "Ada", "CS101", ⟨2025, 8, 17⟩, 0⟩]⟩ : Store).rows ∧
        st.id = 1 ∧
        (dispatch (.deleteStudent 1) ⟨[⟨1, "Ada", "CS101", ⟨2025, 8, 17⟩, 0⟩]⟩ 9).2 =
          .noContent ∧
        statusOf (dispatch (.deleteStudent 1)
          ⟨[⟨1, "Ada", "CS101", ⟨2025, 8, 17⟩, 0⟩]⟩ 9).2 = 204 ∧
        (dispatch (.deleteStudent 1)
            ⟨[⟨1, "Ada", "CS101", ⟨2025, 8, 17⟩, 0⟩]⟩ 9).1.rows.length + 1 =
          (⟨[⟨1, "Ada", "CS101", ⟨2025, 8, 17⟩, 0⟩]⟩ : Store).rows.length ∧
        (∀ r : Student, r ∈ (dispatch (.deleteStudent 1)
            ⟨[⟨1, "Ada", "CS101", ⟨2025, 8, 17⟩, 0⟩]⟩ 9).1.rows ↔
          (r ∈ (⟨[⟨1, "Ada", "CS101", ⟨2025, 8, 17⟩, 0⟩]⟩ : Store).rows ∧ r ≠ st)))) :=
  ⟨by decide,
    delete_student_spec 1 ⟨[⟨1, "Ada", "CS101", ⟨2025, 8, 17⟩, 0⟩]⟩ 9 (by decide)⟩

/-- C9: with an in-range id and a parseable date, a create body is
accepted by validation exactly when the name length is between 1 and
200 and the enrolled-class length is between 1 and 120 — the bounds of
the `String(200)` and `String(120)` table columns. -/
theorem name_class_length_bounds (raw : RawStudentIn) (d : Date)
    (hid : 1 ≤ raw.id) (hdate : parseIsoDate raw.date_joined = some d) :
    ((validateStudentIn raw).isSome = true ↔
      (1 ≤ raw.name.length ∧ raw.name.length ≤ 200 ∧
        1 ≤ raw.enrolled_class.length ∧ raw.enrolled_class.length ≤ 120)) := by
  unfold validateStudentIn
  split
  case isTrue hc =>
    rw [hdate]
    simp only [Option.isSome_some, true_iff]
    exact ⟨hc.2.1, hc.2.2.1, hc.2.2.2.1, hc.2.2.2.2⟩
  case isFalse hc =>
    simp only [Option.isSome_none, Bool.false_eq_true, false_iff]
    intro hb
    exact hc ⟨hid, hb.1, hb.2.1, hb.2.2.1, hb.2.2.2⟩

/-- C9 witness: a concrete body with a 3-character name and a
5-character class is accepted, as the bounds say. -/
theorem name_class_length_bounds_witness :
    (1 : Int) ≤ 1 ∧ parseIsoDate "2025-08-17" = some ⟨2025, 8, 17⟩ ∧
    ((validateStudentIn ⟨1, "Ada", "CS101", "2025-08-17"⟩).isSome = true ↔
      (1 ≤ ("Ada" : String).length ∧ ("Ada" : String).length ≤ 200 ∧
        1 ≤ ("CS101" : String).length ∧ ("CS101" : String).length ≤ 120)) :=
  ⟨by decide, by decide,
    name_class_length_bounds ⟨1, "Ada", "CS101", "2025-08-17"⟩ ⟨2025, 8, 17⟩
      (by decide) (by decide)⟩

/-- C3: the list endpoint returns all stored students (a permutation of
the stored rows) ordered by id ascending; concretely, after inserting
ids 3, 1, 2 in that order into an empty store, listing returns ids
in the order 1, 2, 3. -/
theorem list_students_ordered (db : Store) :
    (dispatch .listStudents db 0 =
        (db, .studentList (List.insertionSort byId db.rows)) ∧
      (List.insertionSort byId db.rows).Perm db.rows ∧
      (List.insertionSort byId db.rows).Sorted byId) ∧
    (∃ out : List Student,
      (dispatch .listStudents
          (dispatch (.createStudent ⟨2, "Eve", "CS103", "2025-08-17"⟩)
            (dispatch (.createStudent ⟨1, "Bob", "CS102", "2025-08-17"⟩)
              (dispatch (.createStudent ⟨3, "Ada", "CS101", "2025-08-17"⟩) ⟨[]⟩ 0).1
              1).1 2).1 3).2 = .studentList out ∧
      out.map (fun r => r.id) = [1, 2, 3]) := by
  refine ⟨⟨rfl, List.perm_insertionSort byId db.rows,
    List.sorted_insertionSort byId db.rows⟩, ⟨_, rfl, by decide⟩⟩

/-- C1: creating a valid student whose id is not yet stored returns 201
echoing the stored record, and fetching that id afterwards returns a
record whose id, name, enrolled class and date joined equal the input
exactly, plus the server-assigned `created_at` timestamp; the date
string round-trips byte-for-byte. -/
theorem create_then_get_roundtrip (raw : RawStudentIn) (student : StudentIn)
    (db : Store) (now now' : Nat)
    (hv : validateStudentIn raw = some student)
    (hfresh : student.id ∉ studentIds db) :
    dispatch (.createStudent raw) db now =
      (⟨db.rows ++
          [⟨student.id, student.name, student.enrolled_class, student.date_joined, now⟩]⟩,
        .created "Student added successfully!"
          ⟨student.id, student.name, student.enrolled_class, student.date_joined, now⟩) ∧
    dispatch (.getStudent student.id) (dispatch (.createStudent raw) db now).1 now' =
      ((dispatch (.createStudent raw) db now).1,
        .studentOne
          ⟨student.id, student.name, student.enrolled_class, student.date_joined, now⟩) ∧
    formatIsoDate student.date_joined = raw.date_joined := by
  have hparse : parseIsoDate raw.date_joined = some student.date_joined := by
    unfold validateStudentIn at hv
    split at hv
    case isFalse => exact absurd hv (by simp)
    case isTrue hc =>
      split at hv
      case h_2 => exact absurd hv (by simp)
      case h_1 d heq =>
        injection hv with hv
        rw [heq, ← hv]
  have hfind : db.rows.find? (fun r => r.id == student.id) = none :=
    find?_id_eq_none db.rows student.id (by simpa [studentIds] using hfresh)
  have hcreate : dispatch (.createStudent raw) db now =
      (⟨db.rows ++
          [⟨student.id, student.name, student.enrolled_class, student.date_joined, now⟩]⟩,
        .created "Student added successfully!"
          ⟨student.id, student.name, student.enrolled_class, student.date_joined, now⟩) := by
    simp only [dispatch]
    unfold createEndpoint
    rw [hv]
    dsimp only
    unfold add_student
    rw [hfind]
  have hfind2 : (db.rows ++
      [(⟨student.id, student.name, student.enrolled_class, student.date_joined, now⟩ :
        Student)]).find? (fun r => r.id == student.id) =
      some ⟨student.id, student.name, student.enrolled_class, student.date_joined, now⟩ := by
    rw [List.find?_append, hfind, Option.none_or]
    simp [List.find?]
  refine ⟨hcreate, ?_, formatIsoDate_parseIsoDate raw.date_joined student.date_joined hparse⟩
  rw [hcreate]
  simp only [dispatch]
  unfold get_student
  rw [hfind2]

/-- C1 witness: the concrete body with id 1, name Ada, class CS101 and
date 2025-08-17 is created into the empty store and fetched back
identically, with the date string reproduced byte-for-byte. -/
theorem create_then_get_roundtrip_witness :
    validateStudentIn ⟨1, "Ada", "CS101", "2025-08-17"⟩ =
      some ⟨1, "Ada", "CS101", ⟨2025, 8, 17⟩⟩ ∧
    (1 : Int) ∉ studentIds ⟨[]⟩ ∧
    (dispatch (.createStudent ⟨1, "Ada", "CS101", "2025-08-17"⟩) ⟨[]⟩ 5 =
        (⟨([] : List Student) ++ [⟨1, "Ada", "CS101", ⟨2025, 8, 17⟩, 5⟩]⟩,
          .created "Student added successfully!" ⟨1, "Ada", "CS101", ⟨2025, 8, 17⟩, 5⟩) ∧
      dispatch (.getStudent 1)
          (dispatch (.createStudent ⟨1, "Ada", "CS101", "2025-08-17"⟩) ⟨[]⟩ 5).1 6 =
        ((dispatch (.createStudent ⟨1, "Ada", "CS101", "2025-08-17"⟩) ⟨[]⟩ 5).1,
          .studentOne ⟨1, "Ada", "CS101", ⟨2025, 8, 17⟩, 5⟩) ∧
      formatIsoDate ⟨2025, 8, 17⟩ = "2025-08-17") :=
  ⟨by decide, by decide,
    create_then_get_roundtrip ⟨1, "Ada", "CS101", "2025-08-17"⟩
      ⟨1, "Ada", "CS101", ⟨2025, 8, 17⟩⟩ ⟨[]⟩ 5 6 (by decide) (by decide)⟩

/-- Every single dispatch step either leaves the rows unchanged, appends
one record with a fresh id, or removes the records bearing one present
id. -/
theorem dispatch_rows_shape (req : Request) (s : Store) (now : Nat) :
    (dispatch req s now).1.rows = s.rows ∨
    (∃ r : Student, r.id ∉ studentIds s ∧ (dispatch req s now).1.rows = s.rows ++ [r]) ∨
    (∃ i : Int, i ∈ studentIds s ∧
      (dispatch req s now).1.rows = s.rows.filter (fun r => r.id != i)) := by
  cases req with
  | root => exact .inl rfl
  | listStudents => exact .inl rfl
  | health probe => exact .inl rfl
  | getStudent i =>
    simp only [dispatch]
    unfold get_student
    cases s.rows.find? (fun r => r.id == i) <;> exact .inl rfl
  | createStudent raw =>
    simp only [dispatch]
    unfold createEndpoint
    cases hv : validateStudentIn raw with
    | none => exact .inl rfl
    | some student =>
      dsimp only
      unfold add_student
      cases hf : s.rows.find? (fun r => r.id == student.id) with
      | some st => exact .inl rfl
      | none =>
        refine .inr (.inl ⟨⟨student.id, student.name, student.enrolled_class,
          student.date_joined, now⟩, ?_, rfl⟩)
        intro hmem
        obtain ⟨r, hr, hrid⟩ := List.mem_map.1 hmem
        exact absurd (beq_iff_eq.2 hrid) (by simpa using List.find?_eq_none.1 hf r hr)
  | deleteStudent i =>
    simp only [dispatch]
    unfold delete_student
    cases hf : s.rows.find? (fun r => r.id == i) with
    | none => exact .inl rfl
    | some st =>
      exact .inr (.inr ⟨i, List.mem_map.2 ⟨st, List.mem_of_find?_eq_some hf,
        by simpa using List.find?_some hf⟩, rfl⟩)

/-- In every reachable store the stored ids are pairwise distinct. -/
theorem reachable_store_nodup (s : Store) (hs : Reachable s) : (studentIds s).Nodup := by
  induction hs with
  | init => exact List.nodup_nil
  | step req now s hsr ih =>
    rcases dispatch_rows_shape req s now with h | ⟨r, hr, h⟩ | ⟨i, hi, h⟩
    · unfold studentIds at ih ⊢
      rw [h]
      exact ih
    · unfold studentIds at ih hr ⊢
      rw [h, List.map_append, List.nodup_append]
      exact ⟨ih, List.nodup_singleton _, List.disjoint_singleton.2 hr⟩
    · unfold studentIds at ih ⊢
      rw [h]
      exact List.Nodup.sublist (List.Sublist.map _ (List.filter_sublist _)) ih

/-- C7: in every state reachable by any sequence of requests, the
stored ids are unique, and every further step either leaves the rows
untouched, inserts one new record with a fresh id, or deletes the
record of one present id — no stored record is ever mutated in place. -/
theorem store_invariants (s : Store) (hs : Reachable s) (req : Request) (now : Nat) :
    (studentIds s).Nodup ∧
    ((dispatch req s now).1.rows = s.rows ∨
      (∃ r : Student, r.id ∉ studentIds s ∧ (dispatch req s now).1.rows = s.rows ++ [r]) ∨
      (∃ i : Int, i ∈ studentIds s ∧
        (dispatch req s now).1.rows = s.rows.filter (fun r => r.id != i))) :=
  ⟨reachable_store_nodup s hs, dispatch_rows_shape req s now⟩

/-- C7 witness: the empty store is reachable, its ids are unique, and a
root request steps it without touching the rows. -/
theorem store_invariants_witness :
    Reachable ⟨[]⟩ ∧
    ((studentIds ⟨[]⟩).Nodup ∧
      ((dispatch .root ⟨[]⟩ 0).1.rows = (⟨[]⟩ : Store).rows ∨
        (∃ r : Student, r.id ∉ studentIds ⟨[]⟩ ∧
          (dispatch .root ⟨[]⟩ 0).1.rows = (⟨[]⟩ : Store).rows ++ [r]) ∨
        (∃ i : Int, i ∈ studentIds ⟨[]⟩ ∧
          (dispatch .root ⟨[]⟩ 0).1.rows =
            (⟨[]⟩ : Store).rows.filter (fun r => r.id != i)))) :=
  ⟨Reachable.init, store_invariants ⟨[]⟩ Reachable.init .root 0⟩

end EduLink
